import Mathlib

/-!
Verification of the ABC tune-file parser and analysis program
(`abc_parser_app.py`).

Python strings are embedded as `List Char` (`Str`), so that every
operation is executable and kernel-reducible.  The file models:

* the Segmenter (`TUNE_BLOCK_REGEX.findall`),
* the Field Extractor (`parse_tune_block`),
* the Book Resolver (`get_book_number_from_path`),
* the Importer (`find_abc_files`, `import_abc_books`, `insert_tune`),
* the query layer (`get_tunes_by_type`, `search_tunes`, `top_composers`).

Modelling conventions:

* Files are read by Python in text mode with universal newlines, so the
  content seen by the parser uses `'\n'` as its only line separator;
  line splitting is therefore modelled as splitting on `'\n'`.
* `str.strip` is modelled as trimming the ASCII whitespace characters
  (space, tab, newline, carriage return, vertical tab, form feed).
* `str.isdigit`, `str.upper`, `str.lower` are modelled on their ASCII
  behaviour; the tags and digits the program inspects are ASCII.
-/

/-- A Python string, embedded as its list of characters. -/
abbrev Str := List Char

/-- Convert a Lean string literal to the embedded representation. -/
def str (s : String) : Str := s.data

/-- The ASCII whitespace characters stripped by Python `str.strip()`. -/
def isSpaceChar (c : Char) : Bool :=
  c == ' ' || c == '\t' || c == '\n' || c == '\r' || c.toNat == 11 || c.toNat == 12

/-- Python `s.strip()`: drop leading and trailing whitespace. -/
def pyStrip (s : Str) : Str :=
  ((s.dropWhile isSpaceChar).reverse.dropWhile isSpaceChar).reverse

/-- Python `s.split(sep)` for a one-character separator.  Always returns a
non-empty list; splitting the empty string yields `[[]]`. -/
def splitChar (sep : Char) : Str → List Str
  | [] => [[]]
  | c :: cs =>
    match splitChar sep cs with
    | [] => [[]]
    | g :: gs => if c = sep then [] :: g :: gs else (c :: g) :: gs

/-- Python `s.splitlines()` on a string that contains no `'\r'`
(universal-newline input): like `split('\n')` except that it yields no
trailing empty piece and `[]` on the empty string.  `parse_tune_block`
only applies it to stripped strings, where the two differ only on `""`. -/
def pySplitlines (s : Str) : List Str :=
  if s = [] then [] else splitChar '\n' s

/-- The lines of a file content, as the multiline regex anchor `^` sees
them: the pieces between the `'\n'` characters. -/
def strLines (s : Str) : List Str := splitChar '\n' s

/-- A record-start marker: a line beginning with the literal two-character
prefix `X:` (the anchored alternative `^X:` / lookahead `\nX:` of
`TUNE_BLOCK_REGEX`). -/
def isMarker (l : Str) : Bool := (str "X:").isPrefixOf l

/-- One step of segmentation, scanning lines right to left.  The
accumulator holds the lines of the block currently being collected and
the finished blocks; a marker line closes off the current block. -/
def segStep (l : Str) (acc : List Str × List (List Str)) : List Str × List (List Str) :=
  if isMarker l then ([], (l :: acc.1) :: acc.2) else (l :: acc.1, acc.2)

/-- The groups of lines carved out of a line list by the record-start
markers: one group per marker line, each group running from its marker up
to (but not including) the next marker or the end; lines before the first
marker belong to no group. -/
def segmentLines (ls : List Str) : List (List Str) :=
  (ls.foldr segStep ([], [])).2

/-- `TUNE_BLOCK_REGEX.findall(content)`: the regex
`(?m)^(X:.*?)(?=(?:\nX:)|\Z)` with `DOTALL` matches lazily from each
line-start `X:` up to just before the next line starting with `X:`, or to
the end of the input.  Equivalently: group the lines at the marker lines
and re-join each group with `'\n'`. -/
def TUNE_BLOCK_REGEX_findall (s : Str) : List Str :=
  (segmentLines (strLines s)).map (List.intercalate (str "\n"))

-- Sanity checks for the segmenter model.
example : TUNE_BLOCK_REGEX_findall (str "pre\nX:1\nT:a\nX:2\nb") =
    [str "X:1\nT:a", str "X:2\nb"] := by decide
example : TUNE_BLOCK_REGEX_findall (str "no markers\nat all") = [] := by decide
example : TUNE_BLOCK_REGEX_findall (str "X:1\nbody\n") = [str "X:1\nbody\n"] := by decide
example : TUNE_BLOCK_REGEX_findall (str "") = [] := by decide

lemma seg_fst (ls : List Str) :
    (ls.foldr segStep ([], [])).1 = ls.takeWhile (fun l => !isMarker l) := by
  induction ls with
  | nil => rfl
  | cons l ls ih =>
    by_cases h : isMarker l <;>
      simp [List.foldr_cons, segStep, h, List.takeWhile_cons, ih]

lemma seg_join (ls : List Str) :
    (ls.foldr segStep ([], [])).1 ++ ((ls.foldr segStep ([], [])).2).flatten = ls := by
  induction ls with
  | nil => rfl
  | cons l ls ih =>
    by_cases h : isMarker l <;>
      simp [List.foldr_cons, segStep, h, ih]

lemma seg_len (ls : List Str) :
    ((ls.foldr segStep ([], [])).2).length = ls.countP isMarker := by
  induction ls with
  | nil => rfl
  | cons l ls ih =>
    by_cases h : isMarker l <;>
      simp [List.foldr_cons, segStep, h, ih, List.countP_cons]

lemma seg_shape (ls : List Str) :
    (∀ x ∈ (ls.foldr segStep ([], [])).1, isMarker x = false) ∧
    (∀ g ∈ (ls.foldr segStep ([], [])).2,
      ∃ m t, g = m :: t ∧ isMarker m = true ∧ ∀ x ∈ t, isMarker x = false) := by
  induction ls with
  | nil => exact ⟨by simp, by simp⟩
  | cons l ls ih =>
    obtain ⟨ih1, ih2⟩ := ih
    by_cases h : isMarker l
    · refine ⟨by simp [List.foldr_cons, segStep, h], ?_⟩
      intro g hg
      simp only [List.foldr_cons, segStep, h, if_pos] at hg
      rcases List.mem_cons.mp hg with rfl | hg
      · exact ⟨l, _, rfl, h, ih1⟩
      · exact ih2 g hg
    · refine ⟨?_, ?_⟩
      · intro x hx
        simp only [List.foldr_cons, segStep, h, if_neg, Bool.not_eq_true] at hx ⊢
        rcases List.mem_cons.mp hx with rfl | hx
        · simpa using h
        · exact ih1 x hx
      · intro g hg
        simp only [List.foldr_cons, segStep, h, if_neg, Bool.not_eq_true] at hg
        exact ih2 g hg

lemma segmentLines_join (ls : List Str) :
    (segmentLines ls).flatten = ls.dropWhile (fun l => !isMarker l) := by
  have h := seg_join ls
  rw [seg_fst ls] at h
  have h2 : ls.takeWhile (fun l => !isMarker l) ++ ls.dropWhile (fun l => !isMarker l) = ls :=
    List.takeWhile_append_dropWhile (fun l => !isMarker l) ls
  unfold segmentLines
  exact List.append_cancel_left (h.trans h2.symm)

/-- C1. The Segmenter yields exactly one block per line beginning with
`X:`, in file order: the number of blocks equals the number of marker
lines, each group of lines starts at a marker line and contains no
further marker line, and the groups jointly cover exactly the input lines
from the first marker on (so preamble text before the first marker
produces no block). -/
theorem segmenter_blocks_match_markers (s : Str) :
    (TUNE_BLOCK_REGEX_findall s).length = (strLines s).countP isMarker ∧
    (segmentLines (strLines s)).flatten =
      (strLines s).dropWhile (fun l => !isMarker l) ∧
    (∀ g ∈ segmentLines (strLines s),
      ∃ m t, g = m :: t ∧ isMarker m = true ∧ ∀ x ∈ t, isMarker x = false) ∧
    TUNE_BLOCK_REGEX_findall s =
      (segmentLines (strLines s)).map (List.intercalate (str "\n")) := by
  refine ⟨?_, segmentLines_join _, (seg_shape _).2, rfl⟩
  unfold TUNE_BLOCK_REGEX_findall segmentLines
  rw [List.length_map]
  exact seg_len _

/-! ## Field Extractor (`parse_tune_block`) -/

/-- The mutable field dictionary built by `parse_tune_block`, plus the
derived `title` added at the end. -/
structure TuneFields where
  x_number : Option Str
  titles : List Str
  composer : Option Str
  rhythm : Option Str
  meter : Option Str
  unit_length : Option Str
  key : Option Str
  tune_text : Str
  title : Option Str
deriving DecidableEq, Repr

/-- `len(line) >= 2 and line[1] == ':'`: the test for a tagged field
line. -/
def isTagLine (l : Str) : Bool :=
  match l with
  | _ :: c1 :: _ => c1 == ':'
  | _ => false

/-- `line[0].upper()`: the tag character of a line (meaningful only when
`isTagLine` holds). -/
def lineTag (l : Str) : Char :=
  match l with
  | c0 :: _ => c0.toUpper
  | [] => ' '

/-- `line[2:].strip()`: the value carried by a tagged field line. -/
def lineValue (l : Str) : Str := pyStrip (l.drop 2)

/-- The body of the `for line in lines` loop of `parse_tune_block`:
dispatch on the upper-cased tag and update the field dictionary. -/
def stepLine (f : TuneFields) (line : Str) : TuneFields :=
  if isTagLine line then
    if lineTag line = 'X' then { f with x_number := some (lineValue line) }
    else if lineTag line = 'T' then { f with titles := f.titles ++ [lineValue line] }
    else if lineTag line = 'C' then { f with composer := some (lineValue line) }
    else if lineTag line = 'R' then { f with rhythm := some (lineValue line) }
    else if lineTag line = 'M' then { f with meter := some (lineValue line) }
    else if lineTag line = 'L' then { f with unit_length := some (lineValue line) }
    else if lineTag line = 'K' then { f with key := some (lineValue line) }
    else f
  else f

/-- The initial field dictionary of `parse_tune_block` (before the line
scan; `title` is only added after the scan, here pre-set to `none`). -/
def initFields (block : Str) : TuneFields :=
  { x_number := none, titles := [], composer := none, rhythm := none,
    meter := none, unit_length := none, key := none,
    tune_text := pyStrip block, title := none }

/-- `parse_tune_block(block)`: strip the block, scan its lines updating
the fields, then derive `title` by joining `titles` with `" / "`. -/
def parse_tune_block (block : Str) : TuneFields :=
  let lines := pySplitlines (pyStrip block)
  let f := lines.foldl stepLine (initFields block)
  { f with
    title := if f.titles.isEmpty then none
             else some (List.intercalate (str " / ") f.titles) }

-- Sanity checks against the spec's scenario (§8).
example :
    (parse_tune_block (str "X:1\nT:The Butterfly\nT:An Fhe\nR:slip jig\nK:Edor\nbody line 1")).titles
      = [str "The Butterfly", str "An Fhe"] := by decide
example :
    (parse_tune_block (str "X:1\nT:a\nT:b")).title = some (str "a / b") := by decide
example : (parse_tune_block (str "X:1\nK:G\nK:D")).key = some (str "D") := by decide
example : (parse_tune_block (str "x:9")).x_number = some (str "9") := by decide
example : (parse_tune_block (str "  hello\nworld  ")).tune_text = str "hello\nworld" := by decide

/-! ## C2: last-occurrence scalars, append-order titles -/

/-- The values of all tagged lines carrying tag `c` (after upper-casing),
in order of appearance. -/
def tagValues (c : Char) (ls : List Str) : List Str :=
  (ls.filter (fun l => isTagLine l && lineTag l == c)).map lineValue

/-- The value of the last tagged line carrying tag `c`, if any. -/
def lastTagValue (c : Char) (ls : List Str) : Option Str :=
  (tagValues c ls).getLast?

lemma tagValues_cons (c : Char) (l : Str) (ls : List Str) :
    tagValues c (l :: ls) =
      (if isTagLine l && lineTag l == c then [lineValue l] else []) ++ tagValues c ls := by
  by_cases h : (isTagLine l && lineTag l == c) <;>
    simp [tagValues, List.filter_cons, h]

lemma lastTagValue_cons (c : Char) (l : Str) (ls : List Str) :
    lastTagValue c (l :: ls) =
      (lastTagValue c ls).or
        (if isTagLine l && lineTag l == c then some (lineValue l) else none) := by
  unfold lastTagValue
  rw [tagValues_cons]
  by_cases h : (isTagLine l && lineTag l == c)
  · simp only [h, if_true]
    cases hv : tagValues c ls with
    | nil => simp [hv]
    | cons a as =>
      simp only [hv, List.singleton_append, List.getLast?_cons_cons]
      cases hlast : (a :: as).getLast? with
      | none =>
        have hs : (a :: as).getLast?.isSome := List.getLast?_isSome.mpr (by simp)
        rw [hlast] at hs
        simp at hs
      | some b => rfl
  · simp [h]

lemma stepLine_x (f : TuneFields) (l : Str) :
    (stepLine f l).x_number =
      if isTagLine l && lineTag l == 'X' then some (lineValue l) else f.x_number := by
  unfold stepLine
  by_cases h : isTagLine l
  · simp only [h, if_true, Bool.true_and]
    split_ifs <;> simp_all
  · simp [h]

lemma stepLine_composer (f : TuneFields) (l : Str) :
    (stepLine f l).composer =
      if isTagLine l && lineTag l == 'C' then some (lineValue l) else f.composer := by
  unfold stepLine
  by_cases h : isTagLine l
  · simp only [h, if_true, Bool.true_and]
    split_ifs <;> simp_all
  · simp [h]

lemma stepLine_rhythm (f : TuneFields) (l : Str) :
    (stepLine f l).rhythm =
      if isTagLine l && lineTag l == 'R' then some (lineValue l) else f.rhythm := by
  unfold stepLine
  by_cases h : isTagLine l
  · simp only [h, if_true, Bool.true_and]
    split_ifs <;> simp_all
  · simp [h]

lemma stepLine_meter (f : TuneFields) (l : Str) :
    (stepLine f l).meter =
      if isTagLine l && lineTag l == 'M' then some (lineValue l) else f.meter := by
  unfold stepLine
  by_cases h : isTagLine l
  · simp only [h, if_true, Bool.true_and]
    split_ifs <;> simp_all
  · simp [h]

lemma stepLine_unit_length (f : TuneFields) (l : Str) :
    (stepLine f l).unit_length =
      if isTagLine l && lineTag l == 'L' then some (lineValue l) else f.unit_length := by
  unfold stepLine
  by_cases h : isTagLine l
  · simp only [h, if_true, Bool.true_and]
    split_ifs <;> simp_all
  · simp [h]

lemma stepLine_key (f : TuneFields) (l : Str) :
    (stepLine f l).key =
      if isTagLine l && lineTag l == 'K' then some (lineValue l) else f.key := by
  unfold stepLine
  by_cases h : isTagLine l
  · simp only [h, if_true, Bool.true_and]
    split_ifs <;> simp_all
  · simp [h]

lemma stepLine_titles (f : TuneFields) (l : Str) :
    (stepLine f l).titles =
      f.titles ++ (if isTagLine l && lineTag l == 'T' then [lineValue l] else []) := by
  unfold stepLine
  by_cases h : isTagLine l
  · simp only [h, if_true, Bool.true_and]
    split_ifs <;> simp_all
  · simp [h]

lemma stepLine_tune_text (f : TuneFields) (l : Str) :
    (stepLine f l).tune_text = f.tune_text := by
  unfold stepLine
  split_ifs <;> rfl

lemma stepLine_title (f : TuneFields) (l : Str) :
    (stepLine f l).title = f.title := by
  unfold stepLine
  split_ifs <;> rfl

/-- The line scan computes, for a scalar field, the last occurrence of
its tag (falling back to the initial value). -/
lemma foldl_scalar (p : TuneFields → Option Str) (c : Char)
    (hp : ∀ f l, p (stepLine f l) =
      if isTagLine l && lineTag l == c then some (lineValue l) else p f) :
    ∀ (ls : List Str) (f : TuneFields),
      p (ls.foldl stepLine f) = (lastTagValue c ls).or (p f) := by
  intro ls
  induction ls with
  | nil => intro f; simp [lastTagValue, tagValues]
  | cons l ls ih =>
    intro f
    rw [List.foldl_cons, ih, hp, lastTagValue_cons]
    by_cases h : (isTagLine l && lineTag l == c) <;>
      cases hv : lastTagValue c ls <;> simp [h, hv]

/-- The line scan appends every title-tagged value in order. -/
lemma foldl_titles (ls : List Str) (f : TuneFields) :
    (ls.foldl stepLine f).titles = f.titles ++ tagValues 'T' ls := by
  induction ls generalizing f with
  | nil => simp [tagValues]
  | cons l ls ih =>
    rw [List.foldl_cons, ih, stepLine_titles, tagValues_cons, List.append_assoc]

lemma foldl_tune_text (ls : List Str) (f : TuneFields) :
    (ls.foldl stepLine f).tune_text = f.tune_text := by
  induction ls generalizing f with
  | nil => rfl
  | cons l ls ih => rw [List.foldl_cons, ih, stepLine_tune_text]

/-- C2. In every parsed block, each scalar field (externalId, composer,
rhythm, meter, unitLength, key) holds the value of the *last* tagged line
for its tag (later occurrences overwrite earlier ones), and `titles`
holds the value of every `T:`/`t:` line in order of appearance. -/
theorem parse_tune_block_last_wins_titles_append (block : Str) :
    (parse_tune_block block).x_number =
      lastTagValue 'X' (pySplitlines (pyStrip block)) ∧
    (parse_tune_block block).composer =
      lastTagValue 'C' (pySplitlines (pyStrip block)) ∧
    (parse_tune_block block).rhythm =
      lastTagValue 'R' (pySplitlines (pyStrip block)) ∧
    (parse_tune_block block).meter =
      lastTagValue 'M' (pySplitlines (pyStrip block)) ∧
    (parse_tune_block block).unit_length =
      lastTagValue 'L' (pySplitlines (pyStrip block)) ∧
    (parse_tune_block block).key =
      lastTagValue 'K' (pySplitlines (pyStrip block)) ∧
    (parse_tune_block block).titles =
      tagValues 'T' (pySplitlines (pyStrip block)) := by
  unfold parse_tune_block
  refine ⟨?_, ?_, ?_, ?_, ?_, ?_, ?_⟩ <;>
    simp only [foldl_scalar (fun f => f.x_number) 'X' stepLine_x,
      foldl_scalar (fun f => f.composer) 'C' stepLine_composer,
      foldl_scalar (fun f => f.rhythm) 'R' stepLine_rhythm,
      foldl_scalar (fun f => f.meter) 'M' stepLine_meter,
      foldl_scalar (fun f => f.unit_length) 'L' stepLine_unit_length,
      foldl_scalar (fun f => f.key) 'K' stepLine_key,
      foldl_titles, initFields, Option.or_none]
  all_goals rfl

/-! ## C5: `title` is derived from `titles` -/

/-- C5. `title` of a parsed record is determined solely by `titles`
(it is set only in the final normalization step): it is absent exactly
when `titles` is empty, and otherwise equals the titles joined with
`" / "`. -/
theorem title_is_join_of_titles (block : Str) :
    ((parse_tune_block block).title = none ↔ (parse_tune_block block).titles = []) ∧
    ((parse_tune_block block).titles ≠ [] →
      (parse_tune_block block).title =
        some (List.intercalate (str " / ") (parse_tune_block block).titles)) := by
  unfold parse_tune_block
  by_cases h : ((pySplitlines (pyStrip block)).foldl stepLine (initFields block)).titles = [] <;>
    simp [h]

/-- Witness for `title_is_join_of_titles` at a block with one title. -/
theorem title_is_join_of_titles_witness :
    (parse_tune_block (str "X:1\nT:a")).title =
      some (List.intercalate (str " / ") (parse_tune_block (str "X:1\nT:a")).titles) :=
  (title_is_join_of_titles (str "X:1\nT:a")).2 (by decide)

/-! ## C6: the permissive parser never fails, ignores unrecognized lines -/

/-- The tag characters `parse_tune_block` dispatches on. -/
def recognizedTags : List Char := ['X', 'T', 'C', 'R', 'M', 'L', 'K']

/-- A line that is not a recognized tagged field line leaves the field
dictionary untouched. -/
lemma stepLine_unrecognized (f : TuneFields) (l : Str)
    (h : ¬(isTagLine l = true ∧ lineTag l ∈ recognizedTags)) : stepLine f l = f := by
  unfold stepLine
  by_cases ht : isTagLine l
  · simp only [ht, if_true]
    split_ifs with h1 h2 h3 h4 h5 h6 h7 <;>
      simp_all [recognizedTags]
  · simp [ht]

lemma foldl_unrecognized (ls : List Str) (f : TuneFields)
    (h : ∀ l ∈ ls, ¬(isTagLine l = true ∧ lineTag l ∈ recognizedTags)) :
    ls.foldl stepLine f = f := by
  induction ls generalizing f with
  | nil => rfl
  | cons l ls ih =>
    rw [List.foldl_cons, stepLine_unrecognized f l (h l (by simp))]
    exact ih f (fun x hx => h x (by simp [hx]))

/-- C6. The Field Extractor is total (a Lean function) and ignores every
line that is not a recognized tagged field line: a block none of whose
lines carries a recognized tag yields the record with all structured
fields absent, empty `titles`, and `body` equal to the stripped block. -/
theorem parse_tune_block_permissive (block : Str)
    (h : ∀ l ∈ pySplitlines (pyStrip block),
      ¬(isTagLine l = true ∧ lineTag l ∈ recognizedTags)) :
    parse_tune_block block =
      { x_number := none, titles := [], composer := none, rhythm := none,
        meter := none, unit_length := none, key := none,
        tune_text := pyStrip block, title := none } := by
  simp only [parse_tune_block]
  rw [foldl_unrecognized _ _ h]
  rfl

/-- Witness for `parse_tune_block_permissive` at a tag-free block. -/
theorem parse_tune_block_permissive_witness :
    parse_tune_block (str "  hello\nworld  ") =
      { x_number := none, titles := [], composer := none, rhythm := none,
        meter := none, unit_length := none, key := none,
        tune_text := str "hello\nworld", title := none } := by
  have h := parse_tune_block_permissive (str "  hello\nworld  ") (by decide)
  rw [h]
  decide

/-! ## C9: lowercase `x:` is no block boundary but still an X-tag -/

/-- C9. A line beginning with lowercase `x:` is not a record-start marker
(the Segmenter's regex is case-sensitive on `X`), yet the Field Extractor
upper-cases its tag: when such a line is the last line scanned, its value
overwrites whatever the `x_number` (externalId) field held, including the
value set by the block's leading `X:` line. -/
theorem lowercase_x_no_marker_still_overwrites (ls : List Str) (f : TuneFields) (l : Str)
    (h : (str "x:").isPrefixOf l = true) :
    isMarker l = false ∧
    ((ls ++ [l]).foldl stepLine f).x_number = some (lineValue l) ∧
    (∀ block : Str, pySplitlines (pyStrip block) = ls ++ [l] →
      (parse_tune_block block).x_number = some (lineValue l)) := by
  obtain ⟨t, rfl⟩ : ∃ t, l = 'x' :: ':' :: t := by
    cases l with
    | nil => simp [str, List.isPrefixOf] at h
    | cons c cs =>
      cases cs with
      | nil => simp [str, List.isPrefixOf] at h
      | cons c1 t =>
        simp only [str, List.isPrefixOf, List.isPrefixOf_nil_left, Bool.and_true,
          Bool.and_eq_true, beq_iff_eq] at h
        exact ⟨t, by rw [← h.1, ← h.2]⟩
  have hstep : ∀ g : TuneFields,
      (stepLine g ('x' :: ':' :: t)).x_number = some (lineValue ('x' :: ':' :: t)) := by
    intro g
    rw [stepLine_x]
    rfl
  refine ⟨rfl, ?_, ?_⟩
  · rw [List.foldl_append, List.foldl_cons, List.foldl_nil]
    exact hstep _
  · intro block hb
    simp only [parse_tune_block]
    rw [hb, List.foldl_append, List.foldl_cons, List.foldl_nil]
    exact hstep _

/-- Witness for `lowercase_x_no_marker_still_overwrites` at the block
`X:1` / `x:2`. -/
theorem lowercase_x_no_marker_still_overwrites_witness :
    isMarker (str "x:2") = false ∧
    (parse_tune_block (str "X:1\nx:2")).x_number = some (lineValue (str "x:2")) := by
  have h := lowercase_x_no_marker_still_overwrites [str "X:1"]
    (initFields (str "X:1\nx:2")) (str "x:2") (by decide)
  exact ⟨h.1, h.2.2 (str "X:1\nx:2") (by decide)⟩

/-! ## Book Resolver (`get_book_number_from_path`) -/

/-- `str.isdigit` (modelled on ASCII): non-empty and all decimal digits. -/
def pyIsdigit (s : Str) : Bool := !s.isEmpty && s.all Char.isDigit

/-- `int(s)` on a decimal digit string. -/
def strToNat (s : Str) : Nat :=
  s.foldl (fun n c => 10 * n + (c.toNat - '0'.toNat)) 0

/-- A path as normalized segments: split on `'/'` (`os.sep`), discard
empty and `.` segments, resolve `..` against the preceding segment.
This is a *restricted* model of the `os.path.abspath` normalization
inside `os.path.relpath`: it drops the working-directory prefix that
`abspath` puts in front of both arguments, which is sound only when
neither argument's `..` segments climb above the working directory (then
the prefix cancels in the common-prefix computation).  It is kept for
the Importer, whose file paths textually extend the corpus root; the
general model is `abspathSegs` / `relpathSegsPy` below. -/
def normSegs (p : Str) : List Str :=
  ((splitChar '/' p).filter (fun s => !s.isEmpty && !(s == str "."))).foldl
    (fun acc s => if s = str ".." then acc.dropLast else acc ++ [s]) []

/-- Length of the common prefix of two segment lists. -/
def commonPrefixLen : List Str → List Str → Nat
  | a :: as, b :: bs => if a = b then commonPrefixLen as bs + 1 else 0
  | _, _ => 0

/-- `os.path.relpath(path, start)` as its list of segments, in the
restricted working-directory-free model of `normSegs` (valid on the
Importer's call pattern only; see `relpathSegsPy` for the general
model): strip the common prefix, prepend one `..` per remaining segment
of `start`, and yield `.` when nothing remains. -/
def relpathSegs (path start : Str) : List Str :=
  if (List.replicate ((normSegs start).length - commonPrefixLen (normSegs path) (normSegs start))
        (str "..") ++
      (normSegs path).drop (commonPrefixLen (normSegs path) (normSegs start))) = []
  then [str "."]
  else List.replicate ((normSegs start).length - commonPrefixLen (normSegs path) (normSegs start))
        (str "..") ++
      (normSegs path).drop (commonPrefixLen (normSegs path) (normSegs start))

/-- `get_book_number_from_path(file_path, base_dir)` as the Importer
exercises it (non-empty walked paths extending the corpus root, where
the restricted `relpathSegs` model is faithful): split the relative path
into parts; when there are at least two parts and the first is all
digits, return it parsed as an integer, else `None`.  The function's
full contract on arbitrary path pairs — including the working-directory
dependence and the `ValueError` on an empty path — is modelled by
`get_book_number_from_path_py` below. -/
def get_book_number_from_path (file_path base_dir : Str) : Option Nat :=
  if 2 ≤ (relpathSegs file_path base_dir).length then
    if pyIsdigit ((relpathSegs file_path base_dir).headD []) then
      some (strToNat ((relpathSegs file_path base_dir).headD []))
    else none
  else none

-- Sanity checks mirroring the spec's Book Resolver examples (§8).
example : get_book_number_from_path (str "root/2/tuneX.abc") (str "root") = some 2 := by decide
example : get_book_number_from_path (str "root/tuneX.abc") (str "root") = none := by decide
example : get_book_number_from_path (str "root/abc/tuneX.abc") (str "root") = none := by decide
example : get_book_number_from_path (str "base/12/deep/t.abc") (str "base") = some 12 := by decide
example : get_book_number_from_path (str "other/2/t.abc") (str "root") = none := by decide

/-! ### The Book Resolver in full: working directory and error path -/

/-- The outcome of a Python call that may raise an exception. -/
inductive PyResult (α : Type) where
  | ok (val : α)
  | raise (msg : Str)
deriving DecidableEq, Repr

/-- Does the path string start with `'/'` (`os.path.isabs`)? -/
def isAbsPath (p : Str) : Bool :=
  match p with
  | c :: _ => c == '/'
  | [] => false

/-- `posixpath.normpath` on the split segments of an *absolute* path:
empty and `.` segments are dropped, `..` pops the preceding segment and
is clamped at the root (an absolute path cannot climb above `/`). -/
def normpathAbsSegs (segs : List Str) : List Str :=
  segs.foldl
    (fun acc s =>
      if s.isEmpty || s == str "." then acc
      else if s == str ".." then acc.dropLast
      else acc ++ [s]) []

/-- `os.path.abspath(p)` run under the working directory `cwd` (given as
the segment list of an absolute path), as a segment list:
`normpath(join(cwd, p))`, where an absolute `p` ignores `cwd`. -/
def abspathSegs (cwd : List Str) (p : Str) : List Str :=
  if isAbsPath p then normpathAbsSegs (splitChar '/' p)
  else normpathAbsSegs (cwd ++ splitChar '/' p)

/-- The segment list of `os.path.relpath(path, start)` under working
directory `cwd`, for a non-empty `path`: make both paths absolute, strip
their common prefix, prepend one `..` per remaining `start` segment, and
yield `.` when nothing remains.  (Joining with `'/'` and re-splitting,
as `get_book_number_from_path` does, returns exactly this list.) -/
def relpathPartsPy (cwd : List Str) (path start : Str) : List Str :=
  if List.replicate ((abspathSegs cwd start).length -
        commonPrefixLen (abspathSegs cwd path) (abspathSegs cwd start)) (str "..") ++
      (abspathSegs cwd path).drop
        (commonPrefixLen (abspathSegs cwd path) (abspathSegs cwd start)) = []
  then [str "."]
  else List.replicate ((abspathSegs cwd start).length -
        commonPrefixLen (abspathSegs cwd path) (abspathSegs cwd start)) (str "..") ++
      (abspathSegs cwd path).drop
        (commonPrefixLen (abspathSegs cwd path) (abspathSegs cwd start))

/-- `os.path.relpath(path, start)` under working directory `cwd`:
raises `ValueError('no path specified')` on an empty path, otherwise
returns `relpathPartsPy`. -/
def relpathSegsPy (cwd : List Str) (path start : Str) : PyResult (List Str) :=
  if path = [] then PyResult.raise (str "no path specified")
  else PyResult.ok (relpathPartsPy cwd path start)

/-- `get_book_number_from_path(file_path, base_dir)`, fully modelled:
under working directory `cwd`, compute `os.path.relpath` — whose
`ValueError` on an empty file path propagates out of the function — and
split it into parts; when there are at least two parts and the first is
all digits, return it parsed as an integer, else `None`. -/
def get_book_number_from_path_py (cwd : List Str) (file_path base_dir : Str) :
    PyResult (Option Nat) :=
  match relpathSegsPy cwd file_path base_dir with
  | PyResult.raise e => PyResult.raise e
  | PyResult.ok parts =>
    PyResult.ok
      (if 2 ≤ parts.length then
        if pyIsdigit (parts.headD []) then some (strToNat (parts.headD []))
        else none
      else none)

-- Sanity checks for the full model, including working-directory effects.
example : get_book_number_from_path_py [str "home"] (str "root/2/tuneX.abc") (str "root") =
    PyResult.ok (some 2) := by decide
example : get_book_number_from_path_py [str "home"] (str "root/tuneX.abc") (str "root") =
    PyResult.ok none := by decide
example : get_book_number_from_path_py [str "home"] (str "root/abc/tuneX.abc") (str "root") =
    PyResult.ok none := by decide
example : get_book_number_from_path_py [str "home"] (str "/root/2/t.abc") (str "/root") =
    PyResult.ok (some 2) := by decide
example : relpathSegsPy [str "home"] (str "a/../../root/2/t.abc") (str "root") =
    PyResult.ok [str "..", str "..", str "root", str "2", str "t.abc"] := by decide

/-- C4 as frozen is false on two counts: for the empty file path the
code raises `ValueError` inside `os.path.relpath` instead of returning
absent, and for a path whose `..` segments climb above the working
directory the result depends on the working directory — the same path
pair yields an integer under one working directory and absent under
another — so no verdict is determined by the pair of path strings
alone. -/
theorem book_number_counterexample :
    get_book_number_from_path_py [str "home"] (str "") (str "root") =
      PyResult.raise (str "no path specified") ∧
    get_book_number_from_path_py [str "home"] (str "a/../../root/2/t.abc") (str "root") =
      PyResult.ok none ∧
    get_book_number_from_path_py [] (str "a/../../root/2/t.abc") (str "root") =
      PyResult.ok (some 2) := by
  decide

/-- C4 (amended).  Fix a working directory.  For an empty file path the
Book Resolver raises `ValueError('no path specified')` instead of
returning.  For a non-empty file path it returns an integer exactly when
the relative path of the file with respect to the corpus root (as
`os.path.relpath` computes it under that working directory) has at least
two segments and the first segment consists entirely of decimal digits;
in that case the result is that segment read as a number, and in every
other case it returns absent. -/
theorem book_number_py_iff_digit_first_segment (cwd : List Str) (fp bd : Str) :
    (fp = [] →
      get_book_number_from_path_py cwd fp bd = PyResult.raise (str "no path specified")) ∧
    (fp ≠ [] →
      ((∀ n : Nat, get_book_number_from_path_py cwd fp bd = PyResult.ok (some n) ↔
         (2 ≤ (relpathPartsPy cwd fp bd).length ∧
          pyIsdigit ((relpathPartsPy cwd fp bd).headD []) = true ∧
          n = strToNat ((relpathPartsPy cwd fp bd).headD []))) ∧
       (get_book_number_from_path_py cwd fp bd = PyResult.ok none ↔
         ¬(2 ≤ (relpathPartsPy cwd fp bd).length ∧
           pyIsdigit ((relpathPartsPy cwd fp bd).headD []) = true)))) := by
  constructor
  · intro h
    unfold get_book_number_from_path_py relpathSegsPy
    rw [if_pos h]
  · intro h
    unfold get_book_number_from_path_py relpathSegsPy
    rw [if_neg h]
    dsimp only
    constructor
    · intro n
      split_ifs with h1 h2 <;> simp_all
      exact eq_comm
    · split_ifs with h1 h2 <;> simp_all

/-- Witness for `book_number_py_iff_digit_first_segment`: under working
directory `/home`, the spec's example `root/2/tuneX.abc` resolves to
book 2, and the empty file path raises. -/
theorem book_number_py_iff_digit_first_segment_witness :
    get_book_number_from_path_py [str "home"] (str "root/2/tuneX.abc") (str "root") =
      PyResult.ok (some 2) ∧
    get_book_number_from_path_py [str "home"] (str "") (str "root") =
      PyResult.raise (str "no path specified") := by
  have h := book_number_py_iff_digit_first_segment [str "home"]
    (str "root/2/tuneX.abc") (str "root")
  have h0 := book_number_py_iff_digit_first_segment [str "home"] (str "") (str "root")
  exact ⟨((h.2 (by decide)).1 2).mpr (by decide), h0.1 (by decide)⟩

/-! ## Store rows and the query layer -/

/-- One row of the `tunes` table / of the DataFrame loaded from it (the
autoincrement `id` column is omitted; `date_added` is an abstract
timestamp). -/
structure PersistedTune where
  book : Option Nat
  file_path : Str
  x_number : Option Str
  title : Option Str
  composer : Option Str
  rhythm : Option Str
  meter : Option Str
  unit_length : Option Str
  key : Option Str
  tune_text : Str
  date_added : Nat
deriving DecidableEq, Repr

/-- Python `s.lower()` (ASCII model). -/
def pyLower (s : Str) : Str := s.map Char.toLower

/-- One element of a compiled pattern: a literal character or the
metacharacter `.` (which matches any character except a newline). -/
inductive RegexAtom where
  | lit (c : Char)
  | dot
deriving DecidableEq, Repr

/-- Modelled from the Python `re` module, on the fragment of patterns
built from ordinary characters and the metacharacter `.`: compile a
pattern, reading `.` as the any-character atom and every other character
as a literal.  (Patterns using other `re` metacharacters are outside the
modelled fragment; the theorems below only apply this function to
patterns inside it.) -/
def compilePattern (p : Str) : List RegexAtom :=
  p.map (fun c => if c = '.' then RegexAtom.dot else RegexAtom.lit c)

def atomMatches : RegexAtom → Char → Bool
  | RegexAtom.lit c, d => c == d
  | RegexAtom.dot, d => !(d == '\n')

/-- Does the pattern match a prefix of the text? -/
def matchHere : List RegexAtom → Str → Bool
  | [], _ => true
  | _ :: _, [] => false
  | a :: ps, c :: cs => atomMatches a c && matchHere ps cs

/-- `re.search`: does the pattern match starting at some position? -/
def reSearch (ps : List RegexAtom) : Str → Bool
  | [] => matchHere ps []
  | c :: cs => matchHere ps (c :: cs) || reSearch ps cs

/-- pandas `Series.str.contains(pat)` applied to one element: with the
default `regex=True`, a regular-expression search of `pat` in the
element, not a literal substring test. -/
def strContainsPat (s pat : Str) : Bool := reSearch (compilePattern pat) s

/-- `df[mask]`: keep the rows whose boolean mask entry is true. -/
def maskFilter (df : List PersistedTune) (mask : List Bool) : List PersistedTune :=
  (df.zip mask).filterMap (fun rb => if rb.2 then some rb.1 else none)

/-- `get_tunes_by_type(df, tune_type)`:
`df[df['rhythm'].fillna('').str.lower().str.contains(tune_type.lower())]`. -/
def get_tunes_by_type (df : List PersistedTune) (tune_type : Str) : List PersistedTune :=
  maskFilter df
    (df.map (fun r => strContainsPat (pyLower ((r.rhythm).getD [])) (pyLower tune_type)))

/-- `search_tunes(df, search_term)`:
`df[df['title'].fillna('').str.lower().str.contains(search_term.lower())]`. -/
def search_tunes (df : List PersistedTune) (search_term : Str) : List PersistedTune :=
  maskFilter df
    (df.map (fun r => strContainsPat (pyLower ((r.title).getD [])) (pyLower search_term)))

/-! ## C3: the queries are substring filters only for regex-free terms -/

/-- Plain (case-insensitive) substring containment — the predicate the
spec describes for `byCategory` and `search`. -/
def isSubstring : Str → Str → Bool
  | n, [] => n.isEmpty
  | n, c :: cs => n.isPrefixOf (c :: cs) || isSubstring n cs

/-- The Python `re` metacharacters. -/
def regexMetachars : Str := str ".^$*+?\x7b\x7d[]()|\\"

/-- A search term free of regex metacharacters, which `re` therefore
treats as a literal string. -/
def isPlainTerm (s : Str) : Bool := s.all (fun c => !regexMetachars.contains c)

lemma compilePattern_plain (p : Str) (h : isPlainTerm p = true) :
    compilePattern p = p.map RegexAtom.lit := by
  apply List.map_congr_left
  intro c hc
  have hall := (List.all_eq_true.mp h) c hc
  have hdot : ¬(c = '.') := by
    intro hdoteq
    rw [hdoteq] at hall
    exact absurd hall (by decide)
  simp [hdot]

lemma matchHere_lits (n : Str) : ∀ h : Str, matchHere (n.map RegexAtom.lit) h = n.isPrefixOf h := by
  induction n with
  | nil => intro h; cases h <;> rfl
  | cons a as ih =>
    intro h
    cases h with
    | nil => rfl
    | cons c cs => simp [matchHere, atomMatches, List.isPrefixOf, ih]

lemma reSearch_lits (n : Str) : ∀ h : Str, reSearch (n.map RegexAtom.lit) h = isSubstring n h := by
  intro h
  induction h with
  | nil =>
    cases n with
    | nil => rfl
    | cons a as => rfl
  | cons c cs ih => simp [reSearch, isSubstring, matchHere_lits, ih]

lemma maskFilter_map (p : PersistedTune → Bool) : ∀ df : List PersistedTune,
    maskFilter df (df.map p) = df.filter p := by
  intro df
  induction df with
  | nil => rfl
  | cons r rs ih =>
    by_cases h : p r <;>
      simp [maskFilter, List.filter_cons, h, List.zip_cons_cons, ← ih]

/-- C3 (amended).  For terms whose lower-cased form contains no regex
metacharacter, `get_tunes_by_type` returns exactly the records (in
order) whose rhythm — absent rhythm read as the empty string — contains
the term case-insensitively as a substring, and `search_tunes` does the
same against the title.  (For terms with metacharacters the term is
interpreted as a regular expression instead; see the counterexample.) -/
theorem queries_substring_for_plain_terms (df : List PersistedTune) (term : Str)
    (h : isPlainTerm (pyLower term) = true) :
    get_tunes_by_type df term =
      df.filter (fun r => isSubstring (pyLower term) (pyLower ((r.rhythm).getD []))) ∧
    search_tunes df term =
      df.filter (fun r => isSubstring (pyLower term) (pyLower ((r.title).getD []))) := by
  constructor
  · rw [get_tunes_by_type, maskFilter_map]
    apply List.filter_congr
    intro r _
    rw [strContainsPat, compilePattern_plain _ h, reSearch_lits]
  · rw [search_tunes, maskFilter_map]
    apply List.filter_congr
    intro r _
    rw [strContainsPat, compilePattern_plain _ h, reSearch_lits]

/-- A concrete row used by the C3 counterexample. -/
def jigRow : PersistedTune :=
  { book := none, file_path := [], x_number := none, title := some (str "jig tune"),
    composer := none, rhythm := some (str "jig"), meter := none, unit_length := none,
    key := none, tune_text := [], date_added := 0 }

/-- C3 as frozen is false: with the search term `.` (a regex
metacharacter), `get_tunes_by_type` returns a record whose rhythm does
not contain `.` as a substring at all — the term is matched as a regular
expression, not as a literal substring. -/
theorem queries_term_is_regex_counterexample :
    get_tunes_by_type [jigRow] (str ".") = [jigRow] ∧
    isSubstring (pyLower (str ".")) (pyLower ((jigRow.rhythm).getD [])) = false ∧
    search_tunes [jigRow] (str ".") = [jigRow] ∧
    isSubstring (pyLower (str ".")) (pyLower ((jigRow.title).getD [])) = false := by
  decide

/-- Witness for `queries_substring_for_plain_terms` on the term `JIG`. -/
theorem queries_substring_for_plain_terms_witness :
    get_tunes_by_type [jigRow] (str "JIG") = [jigRow] ∧
    search_tunes [jigRow] (str "nope") = [] := by
  have h := queries_substring_for_plain_terms [jigRow] (str "JIG") (by decide)
  have h2 := queries_substring_for_plain_terms [jigRow] (str "nope") (by decide)
  rw [h.1, h2.2]
  decide

/-! ## `top_composers` (C7) -/

/-- `df['composer'].fillna('Unknown')` applied to one entry. -/
def fillnaUnknown (o : Option Str) : Str := o.getD (str "Unknown")

/-- Left-to-right scan keeping the first occurrence of each value. -/
def uniqueFirstAux (seen : List Str) : List Str → List Str
  | [] => []
  | x :: xs =>
    if seen.contains x then uniqueFirstAux seen xs
    else x :: uniqueFirstAux (x :: seen) xs

/-- The distinct values of a list, first occurrences in encounter order
(the key order of the hash table behind pandas `value_counts`). -/
def uniqueFirst (l : List Str) : List Str := uniqueFirstAux [] l

/-- Stable descending insertion by count: the new entry passes over the
strictly more frequent ones and lands in front of the first entry whose
count it meets or exceeds. -/
def insertByCount (p : Str × Nat) : List (Str × Nat) → List (Str × Nat)
  | [] => [p]
  | q :: qs => if p.2 < q.2 then q :: insertByCount p qs else p :: q :: qs

/-- Stable insertion sort, descending by count. -/
def sortByCountDesc : List (Str × Nat) → List (Str × Nat)
  | [] => []
  | p :: ps => insertByCount p (sortByCountDesc ps)

/-- Modelled from pandas `Series.value_counts`: the counts of the
distinct values, most frequent first; entries of equal count stay in
first-encounter order (the stable tie order the spec documents in §4.5;
the pandas documentation fixes only the descending count order). -/
def value_counts (vals : List Str) : List (Str × Nat) :=
  sortByCountDesc ((uniqueFirst vals).map (fun v => (v, vals.count v)))

/-- `top_composers(df, top_n)`:
`df['composer'].fillna('Unknown').value_counts().head(top_n)`. -/
def top_composers (df : List PersistedTune) (top_n : Nat) : List (Str × Nat) :=
  (value_counts (df.map (fun r => fillnaUnknown r.composer))).take top_n

-- Sanity check: the spec's §8 example, composers A B A "" C B A, n = 2.
example :
    value_counts [str "A", str "B", str "A", str "", str "C", str "B", str "A"] =
      [(str "A", 3), (str "B", 2), (str "", 1), (str "C", 1)] := by decide

lemma insertByCount_perm (p : Str × Nat) (l : List (Str × Nat)) :
    (insertByCount p l).Perm (p :: l) := by
  induction l with
  | nil => exact List.Perm.refl _
  | cons q qs ih =>
    by_cases h : p.2 < q.2
    · simp only [insertByCount, h, if_pos]
      exact (List.Perm.cons q ih).trans (List.Perm.swap p q qs)
    · simp [insertByCount, h]

lemma sortByCountDesc_perm (l : List (Str × Nat)) :
    (sortByCountDesc l).Perm l := by
  induction l with
  | nil => exact List.Perm.refl _
  | cons p ps ih =>
    exact (insertByCount_perm p (sortByCountDesc ps)).trans (ih.cons p)

lemma insertByCount_sorted (p : Str × Nat) (l : List (Str × Nat))
    (hl : l.Pairwise (fun a b => b.2 ≤ a.2)) :
    (insertByCount p l).Pairwise (fun a b => b.2 ≤ a.2) := by
  induction l with
  | nil => simp [insertByCount]
  | cons q qs ih =>
    rcases List.pairwise_cons.mp hl with ⟨hq, hqs⟩
    by_cases h : p.2 < q.2
    · simp only [insertByCount, h, if_pos]
      refine List.pairwise_cons.mpr ⟨?_, ih hqs⟩
      intro x hx
      rcases List.mem_cons.mp ((insertByCount_perm p qs).mem_iff.mp hx) with rfl | hx
      · exact Nat.le_of_lt h
      · exact hq x hx
    · simp only [insertByCount, h, if_neg]
      refine List.pairwise_cons.mpr ⟨?_, hl⟩
      intro x hx
      rcases List.mem_cons.mp hx with rfl | hx
      · exact Nat.le_of_not_lt h
      · exact le_trans (hq x hx) (Nat.le_of_not_lt h)

lemma sortByCountDesc_sorted (l : List (Str × Nat)) :
    (sortByCountDesc l).Pairwise (fun a b => b.2 ≤ a.2) := by
  induction l with
  | nil => simp [sortByCountDesc]
  | cons p ps ih => exact insertByCount_sorted p _ ih

lemma insertByCount_filter_count (p : Str × Nat) (l : List (Str × Nat)) (c : Nat) :
    (insertByCount p l).filter (fun q => q.2 == c) =
      if p.2 = c then p :: l.filter (fun q => q.2 == c)
      else l.filter (fun q => q.2 == c) := by
  induction l with
  | nil => by_cases h : p.2 = c <;> simp [insertByCount, h]
  | cons q qs ih =>
    by_cases h : p.2 < q.2
    · simp only [insertByCount, h, if_pos, List.filter_cons, ih]
      by_cases hpc : p.2 = c
      · have hqc : (q.2 == c) = false := by
          subst hpc
          simp only [beq_eq_false_iff_ne, ne_eq]
          omega
        simp [hpc, hqc]
      · simp [hpc]
    · simp only [insertByCount, h, if_neg, List.filter_cons]
      by_cases hpc : p.2 = c <;> simp [hpc, List.filter_cons]

lemma sortByCountDesc_filter_count (l : List (Str × Nat)) (c : Nat) :
    (sortByCountDesc l).filter (fun q => q.2 == c) = l.filter (fun q => q.2 == c) := by
  induction l with
  | nil => rfl
  | cons p ps ih =>
    rw [sortByCountDesc, insertByCount_filter_count, List.filter_cons, ih]
    by_cases hpc : p.2 = c <;> simp [hpc]

/-- C7. `top_composers` takes the first `n` entries of the value counts
of the composers with absent composer replaced by the literal
`"Unknown"`; the value counts are a permutation of the distinct values
(in first-encounter order) paired with their occurrence counts, they are
sorted by descending count, and entries of equal count keep their
first-encounter relative order (filtering any fixed count out of the
sorted list returns exactly the first-encounter-ordered entries of that
count). -/
theorem top_composers_counts_sorted_stable (df : List PersistedTune) (top_n : Nat) :
    top_composers df top_n =
      (value_counts (df.map (fun r => (r.composer).getD (str "Unknown")))).take top_n ∧
    (value_counts (df.map (fun r => (r.composer).getD (str "Unknown")))).Perm
      ((uniqueFirst (df.map (fun r => (r.composer).getD (str "Unknown")))).map
        (fun v => (v, (df.map (fun r => (r.composer).getD (str "Unknown"))).count v))) ∧
    (value_counts (df.map (fun r => (r.composer).getD (str "Unknown")))).Pairwise
      (fun a b => b.2 ≤ a.2) ∧
    (∀ c : Nat,
      (value_counts (df.map (fun r => (r.composer).getD (str "Unknown")))).filter
          (fun q => q.2 == c) =
        ((uniqueFirst (df.map (fun r => (r.composer).getD (str "Unknown")))).map
          (fun v => (v, (df.map (fun r => (r.composer).getD (str "Unknown"))).count v))).filter
          (fun q => q.2 == c)) := by
  refine ⟨rfl, sortByCountDesc_perm _, sortByCountDesc_sorted _, fun c => ?_⟩
  exact sortByCountDesc_filter_count _ c

/-! ## C10: an empty composer value is `""`, not absent -/

/-- C10. A `C:` line whose value is only whitespace sets `composer` to
the *empty string*, not to absent: when such a line is the block's last
composer line, the extracted composer is `some ""`; `fillna('Unknown')`
then leaves it as `""` — only a truly absent (`None`) composer becomes
the `"Unknown"` label. -/
theorem empty_composer_is_empty_string_not_unknown (ls : List Str) (f : TuneFields) (l : Str)
    (ht : isTagLine l = true) (hc : lineTag l = 'C') (hv : lineValue l = []) :
    ((ls ++ [l]).foldl stepLine f).composer = some [] ∧
    fillnaUnknown (((ls ++ [l]).foldl stepLine f).composer) = [] ∧
    fillnaUnknown none = str "Unknown" ∧
    ([] : Str) ≠ str "Unknown" ∧
    (∀ block : Str, pySplitlines (pyStrip block) = ls ++ [l] →
      (parse_tune_block block).composer = some []) := by
  have hstep : ∀ g : TuneFields, (stepLine g l).composer = some [] := by
    intro g
    rw [stepLine_composer, ← hv]
    simp [ht, hc]
  refine ⟨?_, ?_, rfl, by decide, ?_⟩
  · rw [List.foldl_append, List.foldl_cons, List.foldl_nil]
    exact hstep _
  · rw [List.foldl_append, List.foldl_cons, List.foldl_nil, hstep _]
    rfl
  · intro block hb
    simp only [parse_tune_block]
    rw [hb, List.foldl_append, List.foldl_cons, List.foldl_nil]
    exact hstep _

/-- Witness for `empty_composer_is_empty_string_not_unknown` at the block
`X:1` / `C:` (only whitespace after the colon). -/
theorem empty_composer_is_empty_string_not_unknown_witness :
    (parse_tune_block (str "X:1\nC: ")).composer = some [] ∧
    fillnaUnknown ((parse_tune_block (str "X:1\nC: ")).composer) = [] := by
  have h := empty_composer_is_empty_string_not_unknown [str "X:1"]
    (initFields (str "X:1\nC: ")) (str "C:") (by decide) (by decide) (by decide)
  have h5 := h.2.2.2.2 (str "X:1\nC: ") (by decide)
  exact ⟨h5, by rw [h5]; rfl⟩

/-! ## Importer (`find_abc_files`, `import_abc_books`) -/

/-- One file of the corpus tree, as `os.walk` + `open` deliver it: its
`'/'`-joined path and its decoded text content (the `errors='ignore'`
decoding never fails, so every file has a content string). -/
structure FileEntry where
  path : Str
  content : Str
deriving DecidableEq, Repr

/-- The final path component — the bare file name `f` that `os.walk`
yields and `find_abc_files` tests. -/
def baseName (p : Str) : Str := (splitChar '/' p).getLastD []

/-- `f.lower().endswith('.abc')`. -/
def isAbcFile (f : Str) : Bool := (str ".abc").isSuffixOf (pyLower f)

/-- Python string `<=` (lexicographic on code points), as used by
`sorted`. -/
def charListLe : Str → Str → Bool
  | [], _ => true
  | _ :: _, [] => false
  | a :: as, b :: bs =>
    if a.toNat < b.toNat then true
    else if b.toNat < a.toNat then false
    else charListLe as bs

def insertSorted (x : Str) : List Str → List Str
  | [] => [x]
  | y :: ys => if charListLe x y then x :: y :: ys else y :: insertSorted x ys

/-- Python `sorted` on a list of strings. -/
def sortStrs : List Str → List Str
  | [] => []
  | x :: xs => insertSorted x (sortStrs xs)

/-- `find_abc_files(base_dir)`: every file of the tree whose name ends in
`.abc` case-insensitively, in sorted full-path order.  The walked
directory tree is modelled as the list of file paths it contains. -/
def find_abc_files (files : List Str) : List Str :=
  sortStrs (files.filter (fun p => isAbcFile (baseName p)))

/-- `parse_abc_file(file_path)` on the file's content: segment, then
parse each block. -/
def parse_abc_file (content : Str) : List TuneFields :=
  (TUNE_BLOCK_REGEX_findall content).map parse_tune_block

/-- Reading a file of the modelled tree by path. -/
def readFile (fs : List FileEntry) (p : Str) : Str :=
  (((fs.find? (fun e => e.path == p)).map FileEntry.content)).getD []

/-- The row `insert_tune` builds from a parsed tune, the book number, the
source path and the timestamp (the tuple of the `INSERT` statement). -/
def persistRow (tune : TuneFields) (book : Option Nat) (fpath : Str) (now : Nat) :
    PersistedTune :=
  { book := book, file_path := fpath, x_number := tune.x_number, title := tune.title,
    composer := tune.composer, rhythm := tune.rhythm, meter := tune.meter,
    unit_length := tune.unit_length, key := tune.key, tune_text := tune.tune_text,
    date_added := now }

/-- `insert_tune`: append one row to the store. -/
def insert_tune (store : List PersistedTune) (tune : TuneFields) (book : Option Nat)
    (fpath : Str) (now : Nat) : List PersistedTune :=
  store ++ [persistRow tune book fpath now]

/-- `import_abc_books(base_dir, db_path)`: over the sorted `.abc` files,
resolve the book number, parse the file, and append one row per tune,
counting the insertions.  Returns the final store and the returned
total. -/
def import_abc_books (fs : List FileEntry) (base_dir : Str) (now : Nat) :
    List PersistedTune × Nat :=
  (find_abc_files (fs.map (fun e => e.path))).foldl
    (fun acc fpath =>
      (parse_abc_file (readFile fs fpath)).foldl
        (fun acc2 tune =>
          (insert_tune acc2.1 tune (get_book_number_from_path fpath base_dir) fpath now,
           acc2.2 + 1))
        acc)
    ([], 0)

/-- The rows a single file contributes. -/
def fileRows (fs : List FileEntry) (base_dir : Str) (now : Nat) (p : Str) :
    List PersistedTune :=
  (parse_abc_file (readFile fs p)).map
    (fun t => persistRow t (get_book_number_from_path p base_dir) p now)

lemma foldl_insert_tunes (tunes : List TuneFields) (book : Option Nat) (fpath : Str)
    (now : Nat) : ∀ acc : List PersistedTune × Nat,
    tunes.foldl
        (fun acc2 tune => (insert_tune acc2.1 tune book fpath now, acc2.2 + 1)) acc =
      (acc.1 ++ tunes.map (fun t => persistRow t book fpath now), acc.2 + tunes.length) := by
  induction tunes with
  | nil => intro acc; simp
  | cons t ts ih =>
    intro acc
    rw [List.foldl_cons, ih]
    simp [insert_tune, List.append_assoc]
    omega

lemma foldl_files (fs : List FileEntry) (base_dir : Str) (now : Nat) :
    ∀ (files : List Str) (acc : List PersistedTune × Nat),
    files.foldl
        (fun acc fpath =>
          (parse_abc_file (readFile fs fpath)).foldl
            (fun acc2 tune =>
              (insert_tune acc2.1 tune (get_book_number_from_path fpath base_dir) fpath now,
               acc2.2 + 1))
            acc)
        acc =
      (acc.1 ++ files.flatMap (fileRows fs base_dir now),
       acc.2 + (files.flatMap (fileRows fs base_dir now)).length) := by
  intro files
  induction files with
  | nil => intro acc; simp
  | cons p ps ih =>
    intro acc
    rw [List.foldl_cons, foldl_insert_tunes, ih]
    simp [fileRows, List.append_assoc]
    omega

lemma charListLe_total (a : Str) : ∀ b : Str, charListLe a b = true ∨ charListLe b a = true := by
  induction a with
  | nil => intro b; left; rfl
  | cons x xs ih =>
    intro b
    cases b with
    | nil => right; rfl
    | cons y ys =>
      simp only [charListLe]
      by_cases h1 : x.toNat < y.toNat
      · left; simp [h1]
      · by_cases h2 : y.toNat < x.toNat
        · right; simp [h1, h2]
        · rcases ih ys with h | h
          · left; simp [h1, h2, h]
          · right; simp [h1, h2, h]

lemma charListLe_trans : ∀ a b c : Str,
    charListLe a b = true → charListLe b c = true → charListLe a c = true := by
  intro a
  induction a with
  | nil => intro b c _ _; rfl
  | cons x xs ih =>
    intro b c h1 h2
    cases b with
    | nil => simp [charListLe] at h1
    | cons y ys =>
      cases c with
      | nil => simp [charListLe] at h2
      | cons z zs =>
        simp only [charListLe] at h1 h2 ⊢
        split_ifs at h1 h2 ⊢ <;>
          first
            | rfl
            | (exact ih ys zs h1 h2)
            | omega

lemma insertSorted_perm (x : Str) (l : List Str) : (insertSorted x l).Perm (x :: l) := by
  induction l with
  | nil => exact List.Perm.refl _
  | cons y ys ih =>
    by_cases h : charListLe x y
    · simp [insertSorted, h]
    · simp only [insertSorted, h, if_neg, Bool.false_eq_true, not_false_eq_true]
      exact (List.Perm.cons y ih).trans (List.Perm.swap x y ys)

lemma sortStrs_perm (l : List Str) : (sortStrs l).Perm l := by
  induction l with
  | nil => exact List.Perm.refl _
  | cons x xs ih => exact (insertSorted_perm x (sortStrs xs)).trans (ih.cons x)

lemma insertSorted_pairwise (x : Str) (l : List Str)
    (hl : l.Pairwise (fun a b => charListLe a b = true)) :
    (insertSorted x l).Pairwise (fun a b => charListLe a b = true) := by
  induction l with
  | nil => simp [insertSorted]
  | cons y ys ih =>
    rcases List.pairwise_cons.mp hl with ⟨hy, hys⟩
    by_cases h : charListLe x y
    · simp only [insertSorted, h, if_pos]
      refine List.pairwise_cons.mpr ⟨?_, hl⟩
      intro z hz
      rcases List.mem_cons.mp hz with rfl | hz
      · exact h
      · exact charListLe_trans x y z h (hy z hz)
    · simp only [insertSorted, h, if_neg, Bool.false_eq_true, not_false_eq_true]
      refine List.pairwise_cons.mpr ⟨?_, ih hys⟩
      intro z hz
      rcases List.mem_cons.mp ((insertSorted_perm x ys).mem_iff.mp hz) with rfl | hz
      · rcases charListLe_total z y with ht | ht
        · exact absurd ht h
        · exact ht
      · exact hy z hz

lemma sortStrs_pairwise (l : List Str) :
    (sortStrs l).Pairwise (fun a b => charListLe a b = true) := by
  induction l with
  | nil => simp [sortStrs]
  | cons x xs ih => exact insertSorted_pairwise x _ ih

-- Sanity check: one matching file, one filtered out; book number 2.
example :
    import_abc_books
      [{ path := str "root/2/a.abc", content := str "X:1\nT:t" },
       { path := str "root/b.txt", content := str "X:9" }]
      (str "root") 7 =
    ([{ book := some 2, file_path := str "root/2/a.abc", x_number := some (str "1"),
        title := some (str "t"), composer := none, rhythm := none, meter := none,
        unit_length := none, key := none, tune_text := str "X:1\nT:t",
        date_added := 7 }], 1) := by decide

/-- C8. The Importer processes exactly the files whose name ends in
`.abc` case-insensitively, in sorted path order: the resulting store is
the concatenation, over the sorted matching files, of one persisted row
per extracted tune (each row carrying the file's book number, resolved
from the file's path, and its path and the timestamp), and the returned
total equals the number of rows appended. -/
theorem import_abc_books_appends_per_tune (fs : List FileEntry) (base_dir : Str) (now : Nat) :
    (import_abc_books fs base_dir now).1 =
      (find_abc_files (fs.map (fun e => e.path))).flatMap (fileRows fs base_dir now) ∧
    (import_abc_books fs base_dir now).2 = (import_abc_books fs base_dir now).1.length ∧
    (find_abc_files (fs.map (fun e => e.path))).Perm
      ((fs.map (fun e => e.path)).filter (fun p => isAbcFile (baseName p))) ∧
    (find_abc_files (fs.map (fun e => e.path))).Pairwise
      (fun a b => charListLe a b = true) ∧
    (∀ p, fileRows fs base_dir now p =
      (parse_abc_file (readFile fs p)).map
        (fun t => persistRow t (get_book_number_from_path p base_dir) p now)) := by
  refine ⟨?_, ?_, sortStrs_perm _, sortStrs_pairwise _, fun p => rfl⟩
  · rw [import_abc_books, foldl_files]
    simp
  · rw [import_abc_books, foldl_files]
    simp

/-- Witness for `segmenter_blocks_match_markers` on a two-tune input
with preamble. -/
theorem segmenter_blocks_match_markers_witness :
    (TUNE_BLOCK_REGEX_findall (str "pre\nX:1\nT:a\nX:2\nb")).length =
      (strLines (str "pre\nX:1\nT:a\nX:2\nb")).countP isMarker ∧
    (∃ m t, [str "X:1", str "T:a"] = m :: t ∧ isMarker m = true ∧
      ∀ x ∈ t, isMarker x = false) := by
  have h := segmenter_blocks_match_markers (str "pre\nX:1\nT:a\nX:2\nb")
  exact ⟨h.1, h.2.2.1 [str "X:1", str "T:a"] (by decide)⟩

/-- A row fixture carrying only a composer, for the `top_composers`
witness. -/
def composerRow (c : Option Str) : PersistedTune :=
  { book := none, file_path := [], x_number := none, title := none, composer := c,
    rhythm := none, meter := none, unit_length := none, key := none, tune_text := [],
    date_added := 0 }

/-- The spec's §8 composer sample: A, B, A, absent, C, B, A. -/
def sampleComposers : List PersistedTune :=
  [composerRow (some (str "A")), composerRow (some (str "B")),
   composerRow (some (str "A")), composerRow none,
   composerRow (some (str "C")), composerRow (some (str "B")),
   composerRow (some (str "A"))]

/-- Witness for `top_composers_counts_sorted_stable`: on the spec's §8
sample with n = 2 the result is A:3, B:2 in that order. -/
theorem top_composers_counts_sorted_stable_witness :
    top_composers sampleComposers 2 = [(str "A", 3), (str "B", 2)] := by
  have h := top_composers_counts_sorted_stable sampleComposers 2
  rw [h.1]
  decide

/-- A two-file corpus fixture for the import witness. -/
def sampleCorpus : List FileEntry :=
  [{ path := str "root/2/a.abc", content := str "X:1\nT:t\nX:2" },
   { path := str "root/b.txt", content := str "X:9" }]

/-- Witness for `import_abc_books_appends_per_tune`: on the two-file
fixture the returned count equals the store length, and only the `.abc`
file was processed (two tunes). -/
theorem import_abc_books_appends_per_tune_witness :
    (import_abc_books sampleCorpus (str "root") 7).2 =
      (import_abc_books sampleCorpus (str "root") 7).1.length ∧
    (import_abc_books sampleCorpus (str "root") 7).2 = 2 := by
  have h := import_abc_books_appends_per_tune sampleCorpus (str "root") 7
  exact ⟨h.2.1, by decide⟩
